import Mathlib

/-!
Verification of the column-detection geometry of `scripts/hebrew_images`
(`utils.py` and `validation.py`).

Modelling conventions:
* Python integers are modelled as `Int` (they are unbounded and signed).
* Python `int(e * c)` for a float literal `c = p/100` truncates toward zero;
  it is modelled exactly as `(e * p).tdiv 100` (`Int.tdiv` truncates toward
  zero, exactly like Python `int()` applied to the exact rational value).
* The binary image (`thresh`, a numpy array) is modelled as a `Mask`:
  dimensions plus an ink predicate per (row, column).  Ink densities
  `count / size` are compared to a threshold `t/100` exactly, by
  cross-multiplication: `count * 100 > t * size`.
* In `expand_width_if_text_cut` the coordinates `x`, `w` are modelled as
  `Nat`: every numpy slice bound that the function forms is nonnegative for
  nonnegative inputs, and on that domain truncated `Nat` subtraction agrees
  with Python subtraction wherever a difference is used (each such
  difference is guarded by a `max`/`min` or by an emptiness test).
-/

namespace HebrewImages

/-- Bounding box `(x, y, w, h)` in integer pixel coordinates. -/
structure Box where
  x : Int
  y : Int
  w : Int
  h : Int
deriving DecidableEq

/-- Expected geometry constants from `utils.py`. -/
def VERTICAL_WIDTH_RANGE : Int × Int := (800, 1200)

def VERTICAL_MIN_HEIGHT : Int := 2000

def VERTICAL_X_RANGE : Int × Int := (100, 300)

def TITLE_SCAN_HEIGHT : Int := 400

def TITLE_MIN_HEIGHT : Int := 25

def TITLE_MAX_HEIGHT : Int := 220

/-- `get_fallback_coords` from `utils.py`: fallback coordinates from image
dimensions alone.  `int(width * 0.28)` and `int(width * 0.4)` are the exact
truncations `(width * 28).tdiv 100` and `(width * 40).tdiv 100`. -/
def get_fallback_coords (width height : Int) : Box :=
  { x := (width * 28).tdiv 100
  , y := 0
  , w := max 700 (min 1100 ((width * 40).tdiv 100))
  , h := height }

/-- `expand_vertical_range` from `utils.py`: force the vertical extent of a
box to start near the top and reach near the bottom of the page. -/
def expand_vertical_range (box : Box) (height : Int) : Box :=
  let y0_start := max 0 (min 50 ((height * 2).tdiv 100))
  let y1_end := min (height - 1) ((height * 93).tdiv 100)
  let h_expanded := y1_end - y0_start
  let min_height := (height * 85).tdiv 100
  if h_expanded < min_height then
    let y1_end2 := min (height - 1) (y0_start + min_height)
    { x := box.x, y := y0_start, w := box.w, h := y1_end2 - y0_start }
  else
    { x := box.x, y := y0_start, w := box.w, h := h_expanded }

/-- `split_wide_region` from `utils.py`: carve the second column out of a
detected region spanning two columns; returns `(new_x0, new_w)`. -/
def split_wide_region (x0 x1 width : Int) : Int × Int :=
  let w_original := x1 - x0
  let split_x :=
    if x0 < 100 then
      max 400 ((width * 25).tdiv 100)
    else
      max (x0 + 400) (x0 + (w_original * 30).tdiv 100)
  let w_second := x1 - split_x
  if w_second < 800 then
    let split_x2 := max 400 (max x0 (x1 - 1100))
    (split_x2, min (x1 - split_x2) 1100)
  else
    (split_x, min w_second 1100)

/-- `validate_column_width` from `utils.py`. -/
def validate_column_width (w width : Int) : Bool :=
  let max_allowed_width := min (VERTICAL_WIDTH_RANGE.2 + 200) ((width * 60).tdiv 100)
  let min_allowed_width := max 600 (VERTICAL_WIDTH_RANGE.1 - 200)
  decide (min_allowed_width ≤ w ∧ w ≤ max_allowed_width)

/-- `reject_first_column` from `utils.py`. -/
def reject_first_column (x width : Int) : Bool :=
  let min_x_threshold := max 50 ((width * 5).tdiv 100)
  decide (x < min_x_threshold)

/-- A thresholded binary image: `ink r c = true` iff the pixel at row `r`,
column `c` is foreground.  Pixels outside the `height × width` grid are
never sampled by the functions below. -/
structure Mask where
  height : Nat
  width : Nat
  ink : Nat → Nat → Bool

/-- Number of ink pixels in column `c` (rows `0..height-1`). -/
def Mask.colCount (m : Mask) (c : Nat) : Nat :=
  (List.range m.height).countP (fun r => m.ink r c)

/-- Number of ink pixels in the column band `[a, b)`: the count of
`thresh[:, a:b]` when `0 ≤ a` and `b ≤ width`. -/
def Mask.stripCount (m : Mask) (a b : Nat) : Nat :=
  ((List.range' a (b - a)).map m.colCount).sum

/-- Python `range(a, b, step)` for `step > 0`. -/
def pyRange (a b step : Nat) : List Nat :=
  List.range' a ((b - a + step - 1) / step) step

/-- Start of the 40 px strip at the right edge of the box:
`right_edge_start = max(x + w - 40, x)`. -/
def right_edge_start (x w : Nat) : Nat := max (x + w - 40) x

/-- End of the right-edge strip: `right_edge_end = min(x + w, width)`. -/
def right_edge_end (m : Mask) (x w : Nat) : Nat := min (x + w) m.width

/-- Pixel count (`size`) of the right-edge strip `thresh[:, res:ree]`. -/
def right_edge_size (m : Mask) (x w : Nat) : Nat :=
  m.height * (right_edge_end m x w - right_edge_start x w)

/-- Ink count of the right-edge strip. -/
def right_edge_count (m : Mask) (x w : Nat) : Nat :=
  m.stripCount (right_edge_start x w) (right_edge_end m x w)

/-- `expand_start = min(x + w, width - 1)`: start of the region beyond the
current right edge. -/
def expandStart (m : Mask) (x w : Nat) : Nat := min (x + w) (m.width - 1)

/-- `expand_end = min(x + w + 60, width)`: end of the 60 px look-ahead. -/
def expandEnd (m : Mask) (x w : Nat) : Nat := min (x + w + 60) m.width

/-- Pixel count of the beyond-the-edge region `thresh[:, es:ee]`. -/
def beyond_size (m : Mask) (x w : Nat) : Nat :=
  m.height * (expandEnd m x w - expandStart m x w)

/-- Ink count of the beyond-the-edge region. -/
def beyond_count (m : Mask) (x w : Nat) : Nat :=
  m.stripCount (expandStart m x w) (expandEnd m x w)

/-- The scan loop of `expand_width_if_text_cut` (`validation.py`,
lines 65-77): for each step `check_x`, look at the 40 px strip
`thresh[:, check_x : min(check_x+40, width)]`; on an empty strip stop; if
its density exceeds 0.08 record `best_end = check_x + 40` and continue,
otherwise stop. -/
def textEndWalk (m : Mask) (steps : List Nat) (best_end : Nat) : Nat :=
  match steps with
  | [] => best_end
  | check_x :: rest =>
    let strip_end := min (check_x + 40) m.width
    let strip_size := m.height * (strip_end - check_x)
    if strip_size = 0 then best_end
    else if 8 * strip_size < m.stripCount check_x strip_end * 100 then
      textEndWalk m rest (check_x + 40)
    else best_end

/-- The `best_end` value computed by the scan loop of
`expand_width_if_text_cut`: the walk starts at `expand_start`
(as does `best_end`) and runs to `expand_full_end = min(x + w + max_expand,
width)` in 20 px steps. -/
def bestEnd (m : Mask) (x w max_expand : Nat) : Nat :=
  textEndWalk m (pyRange (expandStart m x w) (min (x + w + max_expand) m.width) 20)
    (expandStart m x w)

/-- `expand_width_if_text_cut` from `validation.py`: conservatively widen a
narrow column when ink density shows text being cut at its right edge.
Densities `count/size > t` are compared exactly as `count * 100 > t100 * size`
(`beyond_density` is defined as `0` on an empty region, which the exact
comparison subsumes since the count of an empty region is `0`). -/
def expand_width_if_text_cut (m : Mask) (x w : Nat) (max_expand : Nat) : Nat × Nat :=
  if 850 ≤ w then (x, w)
  else if right_edge_size m x w = 0 then (x, w)
  else if 18 * right_edge_size m x w < right_edge_count m x w * 100 then
    if expandStart m x w < expandEnd m x w then
      if 12 * beyond_size m x w < beyond_count m x w * 100 then
        if expandStart m x w + 40 < bestEnd m x w max_expand then
          let new_w := min (bestEnd m x w max_expand - x) 1100
          if w + 40 < new_w then (x, new_w) else (x, w)
        else (x, w)
      else (x, w)
    else (x, w)
  else (x, w)

/-- Modelled from the spec words of claim C2 (amended to the code's
truncation): `estimateFallback` with `clamp(t, min=700, max=1100)` spelled
in the min-first order, for comparison with `get_fallback_coords`. -/
def estimateFallbackSpec (width height : Int) : Box :=
  { x := (width * 28).tdiv 100
  , y := 0
  , w := min 1100 (max 700 ((width * 40).tdiv 100))
  , h := height }

/-- Rounding to the nearest integer, `round(num/den)` for `den > 0`, as the
spec's `round(...)` reads mathematically: `floor(num/den + 1/2)`.  (No ties
arise at the inputs where it is used, so the tie-breaking rule is moot.) -/
def roundNearest (num den : Int) : Int := (2 * num + den).fdiv (2 * den)

/-- Modelled from the words of claim C10: the simplification of
`expand_vertical_range` that ignores the input box's `y` and `h` entirely. -/
def expand_vertical_range_simple (box : Box) (height : Int) : Box :=
  let y0 := max 0 (min 50 ((height * 2).tdiv 100))
  let y1 := min (height - 1) ((height * 93).tdiv 100)
  { x := box.x, y := y0, w := box.w, h := y1 - y0 }

/-- A small all-ink test image (2 rows, 1000 columns). -/
def maskAllInk : Mask := ⟨2, 1000, fun _ _ => true⟩

/-- A small all-background test image (1 row, 100 columns). -/
def maskNoInk : Mask := ⟨1, 100, fun _ _ => false⟩

/-! ## Theorems -/

/-- C2 (amended): `get_fallback_coords` always returns exactly
`x = trunc(0.28 * width)`, `y = 0`, `w = clamp(trunc(0.4 * width), min=700,
max=1100)`, `h = height` (Python `int()` truncation in place of the spec's
`round`); it never fails (it is a total function); in particular
`(width, height) = (1000, 3000)` yields `(280, 0, 700, 3000)`. -/
theorem claim_C2_fallback_formula :
    (∀ width height : Int, get_fallback_coords width height = estimateFallbackSpec width height)
    ∧ get_fallback_coords 1000 3000 = ⟨280, 0, 700, 3000⟩ := by
  constructor
  · intro width height
    simp only [get_fallback_coords, estimateFallbackSpec, Box.mk.injEq, true_and, and_true]
    omega
  · decide

/-- C2 counterexample: the claim states `x = round(0.28 * width)`, but at
`width = 1052` the code returns `x = int(294.56) = 294` while
`round(294.56) = 295`. -/
theorem claim_C2_cex :
    (get_fallback_coords 1052 3000).x ≠ roundNearest (1052 * 28) 100 := by decide

/-- C9 (amended): `validate_column_width w width` is `true` iff
`600 ≤ w ≤ min(1400, trunc(0.6 * width))` (Python `int()` truncation in
place of the spec's `round`); in particular `(900, 1600)` is valid and
`(1000, 1600)` is not. -/
theorem claim_C9_width_validation :
    (∀ w width : Int, validate_column_width w width = true ↔
        600 ≤ w ∧ w ≤ min 1400 ((width * 60).tdiv 100))
    ∧ validate_column_width 900 1600 = true
    ∧ validate_column_width 1000 1600 = false := by
  refine ⟨?_, by decide, by decide⟩
  intro w width
  simp only [validate_column_width, VERTICAL_WIDTH_RANGE, decide_eq_true_eq]
  omega

/-- C9 counterexample: with `round` as the claim states, `w = 961`,
`imageWidth = 1601` would be valid (`round(0.6 * 1601) = round(960.6) = 961`),
but the code truncates (`int(960.6) = 960`) and rejects it. -/
theorem claim_C9_cex :
    validate_column_width 961 1601 = false
    ∧ 600 ≤ (961 : Int) ∧ (961 : Int) ≤ min 1400 (roundNearest (1601 * 60) 100) := by
  decide

/-- C6: for every box and `imageHeight ≥ 1`, the box returned by
`expand_vertical_range` starts within the top 2 percent of the page
(`y * 50 ≤ height`) and within 50 px, spans at least 85 percent of the page
height (rounded down), and its bottom edge `y + h` stays at or above
`imageHeight - 1`. -/
theorem claim_C6_vertical_invariant (box : Box) (height : Int) (hh : 1 ≤ height) :
    (expand_vertical_range box height).y * 50 ≤ height
    ∧ (expand_vertical_range box height).y ≤ 50
    ∧ (height * 85).tdiv 100 ≤ (expand_vertical_range box height).h
    ∧ (expand_vertical_range box height).y + (expand_vertical_range box height).h
        ≤ height - 1 := by
  have e2 : (height * 2).tdiv 100 = height * 2 / 100 :=
    Int.tdiv_eq_ediv (by omega) (by omega)
  have e93 : (height * 93).tdiv 100 = height * 93 / 100 :=
    Int.tdiv_eq_ediv (by omega) (by omega)
  have e85 : (height * 85).tdiv 100 = height * 85 / 100 :=
    Int.tdiv_eq_ediv (by omega) (by omega)
  simp only [expand_vertical_range, e2, e93, e85]
  split_ifs <;> (dsimp only; refine ⟨?_, ?_, ?_, ?_⟩ <;> omega)

/-- C6 witness at `box = (1, 2, 3, 4)`, `imageHeight = 2000`. -/
theorem claim_C6_witness :
    (1 : Int) ≤ 2000
    ∧ ((expand_vertical_range ⟨1, 2, 3, 4⟩ 2000).y * 50 ≤ 2000
       ∧ (expand_vertical_range ⟨1, 2, 3, 4⟩ 2000).y ≤ 50
       ∧ ((2000 : Int) * 85).tdiv 100 ≤ (expand_vertical_range ⟨1, 2, 3, 4⟩ 2000).h
       ∧ (expand_vertical_range ⟨1, 2, 3, 4⟩ 2000).y
           + (expand_vertical_range ⟨1, 2, 3, 4⟩ 2000).h ≤ 2000 - 1) :=
  ⟨by decide, claim_C6_vertical_invariant ⟨1, 2, 3, 4⟩ 2000 (by decide)⟩

/-- C7: `expand_vertical_range` is idempotent: applying it to its own output
with the same image height returns the same box, for every box and every
height (the computation depends only on the input's `x`, `w` and the image
height, all of which it preserves). -/
theorem claim_C7_idempotent (box : Box) (height : Int) :
    expand_vertical_range (expand_vertical_range box height) height
      = expand_vertical_range box height := by
  simp only [expand_vertical_range]
  split_ifs <;> rfl

/-- C8: `expand_vertical_range` preserves the horizontal components: the
output box has the same `x` and the same `w` as the input box. -/
theorem claim_C8_frame (box : Box) (height : Int) :
    (expand_vertical_range box height).x = box.x
    ∧ (expand_vertical_range box height).w = box.w := by
  simp only [expand_vertical_range]
  split_ifs <;> exact ⟨rfl, rfl⟩

/-- C10: for every `imageHeight ≥ 1` the re-extension branch of
`expand_vertical_range` is unreachable — the initial coverage
`min(h-1, trunc(0.93 h)) - max(0, min(50, trunc(0.02 h)))` is already at
least `trunc(0.85 h)` — so the function agrees with the simpler function
that ignores the input box's `y` and `h`. -/
theorem claim_C10_refinement (box : Box) (height : Int) (hh : 1 ≤ height) :
    (height * 85).tdiv 100
      ≤ min (height - 1) ((height * 93).tdiv 100)
          - max 0 (min 50 ((height * 2).tdiv 100))
    ∧ expand_vertical_range box height = expand_vertical_range_simple box height := by
  have e2 : (height * 2).tdiv 100 = height * 2 / 100 :=
    Int.tdiv_eq_ediv (by omega) (by omega)
  have e93 : (height * 93).tdiv 100 = height * 93 / 100 :=
    Int.tdiv_eq_ediv (by omega) (by omega)
  have e85 : (height * 85).tdiv 100 = height * 85 / 100 :=
    Int.tdiv_eq_ediv (by omega) (by omega)
  have key : (height * 85).tdiv 100
      ≤ min (height - 1) ((height * 93).tdiv 100)
          - max 0 (min 50 ((height * 2).tdiv 100)) := by
    rw [e2, e93, e85]; omega
  refine ⟨key, ?_⟩
  simp only [expand_vertical_range, expand_vertical_range_simple]
  rw [if_neg (by omega)]

/-- C10 witness at `box = (7, 8, 9, 10)`, `imageHeight = 2000`. -/
theorem claim_C10_witness :
    (1 : Int) ≤ 2000
    ∧ (((2000 : Int) * 85).tdiv 100
        ≤ min ((2000 : Int) - 1) (((2000 : Int) * 93).tdiv 100)
            - max 0 (min 50 (((2000 : Int) * 2).tdiv 100))
       ∧ expand_vertical_range ⟨7, 8, 9, 10⟩ 2000
           = expand_vertical_range_simple ⟨7, 8, 9, 10⟩ 2000) :=
  ⟨by decide, claim_C10_refinement ⟨7, 8, 9, 10⟩ 2000 (by decide)⟩

/-- C3 (amended): the width returned by `split_wide_region` never exceeds
1100 px, and it is at least 800 px whenever the input region is itself at
least 1200 px wide (`x1 - x0 ≥ 1200`, with `0 ≤ x0` and `x1 ≤ imageWidth`);
for narrower input regions it can fall below 800 px. -/
theorem claim_C3_split_width :
    (∀ x0 x1 width : Int, 0 ≤ x0 → x0 + 1200 ≤ x1 → x1 ≤ width →
        800 ≤ (split_wide_region x0 x1 width).2
        ∧ (split_wide_region x0 x1 width).2 ≤ 1100)
    ∧ (∀ x0 x1 width : Int, (split_wide_region x0 x1 width).2 ≤ 1100) := by
  constructor
  · intro x0 x1 width h0 h12 hw
    simp only [split_wide_region]
    split_ifs <;> (dsimp only; constructor <;> omega)
  · intro x0 x1 width
    simp only [split_wide_region]
    split_ifs <;> (dsimp only; omega)

/-- C3 counterexample: the input region `(x0, x1) = (0, 1000)` on a 1600 px
wide page satisfies `0 ≤ x0 < x1 ≤ imageWidth`, yet the returned width is
600 px, below the claimed minimum of 800 px. -/
theorem claim_C3_cex :
    (0 : Int) ≤ 0 ∧ (0 : Int) < 1000 ∧ (1000 : Int) ≤ 1600
    ∧ (split_wide_region 0 1000 1600).2 < 800 := by decide

/-- C3 witness at `(x0, x1, imageWidth) = (0, 1250, 1600)`. -/
theorem claim_C3_witness :
    ((0 : Int) ≤ 0 ∧ (0 : Int) + 1200 ≤ 1250 ∧ (1250 : Int) ≤ 1600
     ∧ 800 ≤ (split_wide_region 0 1250 1600).2
     ∧ (split_wide_region 0 1250 1600).2 ≤ 1100)
    ∧ (split_wide_region 5 3 7).2 ≤ 1100 :=
  ⟨⟨by decide, by decide, by decide,
    (claim_C3_split_width.1 0 1250 1600 (by decide) (by decide) (by decide)).1,
    (claim_C3_split_width.1 0 1250 1600 (by decide) (by decide) (by decide)).2⟩,
   claim_C3_split_width.2 5 3 7⟩

/-- A column never holds more ink pixels than the image height. -/
theorem Mask.colCount_le (m : Mask) (c : Nat) : m.colCount c ≤ m.height := by
  have h := List.countP_le_length (p := fun r => m.ink r c) (l := List.range m.height)
  simpa [Mask.colCount] using h

/-- The ink count of `n` consecutive columns is at most `height * n`. -/
theorem sum_colCount_le (m : Mask) (a n : Nat) :
    ((List.range' a n).map m.colCount).sum ≤ m.height * n := by
  induction n generalizing a with
  | zero => simp
  | succ k ih =>
    rw [List.range'_succ]
    simp only [List.map_cons, List.sum_cons]
    have h1 := Mask.colCount_le m a
    have h2 := ih (a + 1)
    have h3 : m.height * (k + 1) = m.height * k + m.height := by ring
    omega

/-- A strip's ink count is at most its pixel count. -/
theorem Mask.stripCount_le (m : Mask) (a b : Nat) :
    m.stripCount a b ≤ m.height * (b - a) :=
  sum_colCount_le m a (b - a)

/-- A strip with a positive ink count is a nonempty column range. -/
theorem Mask.stripCount_pos (m : Mask) (a b : Nat) (h : 0 < m.stripCount a b) :
    a < b := by
  by_contra hab
  have hba : b - a = 0 := by omega
  rw [Mask.stripCount, hba] at h
  simp at h

/-- The scan loop never moves past any bound that dominates its start and
every reachable strip end. -/
theorem textEndWalk_le (m : Mask) (B : Nat) :
    ∀ (steps : List Nat) (best : Nat), best ≤ B → (∀ c ∈ steps, c + 40 ≤ B) →
      textEndWalk m steps best ≤ B := by
  intro steps
  induction steps with
  | nil => intro best hb _; simpa [textEndWalk] using hb
  | cons c rest ih =>
    intro best hb hs
    simp only [textEndWalk]
    split_ifs with h1 h2
    · exact hb
    · exact ih (c + 40) (hs c (by simp)) (fun d hd => hs d (by simp [hd]))
    · exact hb

/-- Elements of `pyRange a b 20` lie strictly below `b`. -/
theorem mem_pyRange_lt {a b c : Nat} (h : c ∈ pyRange a b 20) : c < b := by
  simp only [pyRange, List.mem_range'] at h
  obtain ⟨i, hi, rfl⟩ := h
  omega

/-- The scan loop's result overshoots the scan interval by at most 39 px
(its last step starts below `expand_full_end` and adds a 40 px strip). -/
theorem bestEnd_le (m : Mask) (x w me : Nat) :
    bestEnd m x w me ≤ min (x + w + me) m.width + 39 := by
  refine textEndWalk_le m _ _ _ ?_ ?_
  · simp only [expandStart]; omega
  · intro c hc
    have := mem_pyRange_lt hc
    omega

/-- C5: `expand_width_if_text_cut` returns `(x, w)` unchanged whenever any
gate fails — the width is at least 850 px, or the right-edge ink density is
at most 0.18, or the density of the 60 px beyond the edge is at most 0.12 —
regardless of what ink lies further beyond the edge. -/
theorem claim_C5_gates (m : Mask) (x w : Nat)
    (h : 850 ≤ w
      ∨ right_edge_count m x w * 100 ≤ 18 * right_edge_size m x w
      ∨ beyond_count m x w * 100 ≤ 12 * beyond_size m x w) :
    expand_width_if_text_cut m x w 200 = (x, w) := by
  simp only [expand_width_if_text_cut]
  split_ifs <;> first | rfl | (exfalso; omega)

/-- C5 witness: an all-background image, where the right-edge density gate
fails. -/
theorem claim_C5_witness :
    (850 ≤ 50
      ∨ right_edge_count maskNoInk 0 50 * 100 ≤ 18 * right_edge_size maskNoInk 0 50
      ∨ beyond_count maskNoInk 0 50 * 100 ≤ 12 * beyond_size maskNoInk 0 50)
    ∧ expand_width_if_text_cut maskNoInk 0 50 200 = (0, 50) :=
  ⟨by decide, claim_C5_gates maskNoInk 0 50 (by decide)⟩

/-- C4: when all three density gates pass, `expand_width_if_text_cut`
returns the walk's outcome: with `bestEnd` the furthest strip end whose
density exceeded 0.08 (the walk stopping at the first strip at or below
0.08, in 20 px steps with 40 px strips up to 200 px beyond the edge), the
result is `(x, min(bestEnd - x, 1100))` provided `bestEnd` extends at least
40 px past the starting edge and the new width exceeds `w + 40`, else
`(x, w)` unchanged; in particular the expanded width never exceeds 1100. -/
theorem claim_C4_walk (m : Mask) (x w : Nat)
    (h1 : w < 850)
    (h2 : 18 * right_edge_size m x w < right_edge_count m x w * 100)
    (h3 : 12 * beyond_size m x w < beyond_count m x w * 100) :
    (expand_width_if_text_cut m x w 200
      = if expandStart m x w + 40 ≤ bestEnd m x w 200
            ∧ w + 40 < min (bestEnd m x w 200 - x) 1100
        then (x, min (bestEnd m x w 200 - x) 1100)
        else (x, w))
    ∧ (expand_width_if_text_cut m x w 200 = (x, w)
        ∨ (expand_width_if_text_cut m x w 200).2 ≤ 1100) := by
  have hrc : right_edge_count m x w ≤ right_edge_size m x w := by
    have h := Mask.stripCount_le m (right_edge_start x w) (right_edge_end m x w)
    simpa [right_edge_count, right_edge_size] using h
  have hrs0 : ¬ right_edge_size m x w = 0 := by omega
  have hbc : 0 < beyond_count m x w := by omega
  have hlt : expandStart m x w < expandEnd m x w :=
    Mask.stripCount_pos m (expandStart m x w) (expandEnd m x w)
      (by simpa [beyond_count] using hbc)
  have hesx : expandStart m x w ≤ x + w := by simp only [expandStart]; omega
  have hmain : expand_width_if_text_cut m x w 200
      = if expandStart m x w + 40 ≤ bestEnd m x w 200
            ∧ w + 40 < min (bestEnd m x w 200 - x) 1100
        then (x, min (bestEnd m x w 200 - x) 1100)
        else (x, w) := by
    simp only [expand_width_if_text_cut]
    rw [if_neg (by omega), if_neg hrs0, if_pos h2, if_pos hlt, if_pos h3]
    by_cases hbe : expandStart m x w + 40 < bestEnd m x w 200
    · rw [if_pos hbe]
      by_cases hnw : w + 40 < min (bestEnd m x w 200 - x) 1100
      · rw [if_pos hnw, if_pos ⟨by omega, hnw⟩]
      · rw [if_neg hnw, if_neg (by rintro ⟨hle, hlt2⟩; exact hnw hlt2)]
    · rw [if_neg hbe, if_neg (by rintro ⟨hle, hlt2⟩; omega)]
  refine ⟨hmain, ?_⟩
  rw [hmain]
  split_ifs with hc
  · right; dsimp only; omega
  · left; rfl

/-- C4 witness: an all-ink image, where every gate passes and the walk
expands the 400 px box to 620 px. -/
theorem claim_C4_witness :
    (400 < 850
      ∧ 18 * right_edge_size maskAllInk 100 400 < right_edge_count maskAllInk 100 400 * 100
      ∧ 12 * beyond_size maskAllInk 100 400 < beyond_count maskAllInk 100 400 * 100)
    ∧ ((expand_width_if_text_cut maskAllInk 100 400 200
        = if expandStart maskAllInk 100 400 + 40 ≤ bestEnd maskAllInk 100 400 200
              ∧ 400 + 40 < min (bestEnd maskAllInk 100 400 200 - 100) 1100
          then (100, min (bestEnd maskAllInk 100 400 200 - 100) 1100)
          else (100, 400))
      ∧ (expand_width_if_text_cut maskAllInk 100 400 200 = (100, 400)
          ∨ (expand_width_if_text_cut maskAllInk 100 400 200).2 ≤ 1100)) :=
  ⟨⟨by decide, by decide, by decide⟩,
   claim_C4_walk maskAllInk 100 400 (by decide) (by decide) (by decide)⟩

/-- C1 (amended): box-bound invariants of the four refinement steps.
Fallback satisfies the full invariant for every image with `width ≥ 971`
(for narrower images its 700 px minimum width overruns the right edge);
Normalize (for `height ≥ 1`) keeps `x`, `w` and establishes
`0 ≤ y` and `y + h ≤ height`; Split returns `x ≥ 0` and `x + w ≤ width`
whenever `0 ≤ x0` and `x1 ≤ width`; Repair keeps `x` and keeps
`x + w ≤ width` provided the input box leaves 240 px of right margin
(without that margin it can overrun the right edge by up to 39 px). -/
theorem claim_C1_invariants :
    (∀ width height : Int, 971 ≤ width → 1 ≤ height →
        0 ≤ (get_fallback_coords width height).x
        ∧ 0 ≤ (get_fallback_coords width height).y
        ∧ (get_fallback_coords width height).x + (get_fallback_coords width height).w ≤ width
        ∧ (get_fallback_coords width height).y + (get_fallback_coords width height).h ≤ height)
    ∧ (∀ (box : Box) (height imageWidth : Int), 1 ≤ height →
        0 ≤ box.x → box.x + box.w ≤ imageWidth →
        0 ≤ (expand_vertical_range box height).x
        ∧ 0 ≤ (expand_vertical_range box height).y
        ∧ (expand_vertical_range box height).x + (expand_vertical_range box height).w
            ≤ imageWidth
        ∧ (expand_vertical_range box height).y + (expand_vertical_range box height).h
            ≤ height)
    ∧ (∀ x0 x1 width : Int, 0 ≤ x0 → x1 ≤ width →
        0 ≤ (split_wide_region x0 x1 width).1
        ∧ (split_wide_region x0 x1 width).1 + (split_wide_region x0 x1 width).2 ≤ width)
    ∧ (∀ (m : Mask) (x w : Nat), x + w + 240 ≤ m.width →
        (expand_width_if_text_cut m x w 200).1 = x
        ∧ (expand_width_if_text_cut m x w 200).1 + (expand_width_if_text_cut m x w 200).2
            ≤ m.width) := by
  refine ⟨?_, ?_, ?_, ?_⟩
  · intro width height hw hh
    have e28 : (width * 28).tdiv 100 = width * 28 / 100 :=
      Int.tdiv_eq_ediv (by omega) (by omega)
    have e40 : (width * 40).tdiv 100 = width * 40 / 100 :=
      Int.tdiv_eq_ediv (by omega) (by omega)
    simp only [get_fallback_coords, e28, e40]
    refine ⟨?_, ?_, ?_, ?_⟩ <;> (dsimp only; omega)
  · intro box height imageWidth hh hx hxw
    have e2 : (height * 2).tdiv 100 = height * 2 / 100 :=
      Int.tdiv_eq_ediv (by omega) (by omega)
    have e93 : (height * 93).tdiv 100 = height * 93 / 100 :=
      Int.tdiv_eq_ediv (by omega) (by omega)
    have e85 : (height * 85).tdiv 100 = height * 85 / 100 :=
      Int.tdiv_eq_ediv (by omega) (by omega)
    simp only [expand_vertical_range, e2, e93, e85]
    split_ifs <;> (dsimp only; refine ⟨?_, ?_, ?_, ?_⟩ <;> omega)
  · intro x0 x1 width h0 h1
    simp only [split_wide_region]
    split_ifs <;> (dsimp only; exact ⟨by omega, by omega⟩)
  · intro m x w hmw
    have hbe := bestEnd_le m x w 200
    simp only [expand_width_if_text_cut]
    split_ifs <;> exact ⟨rfl, by dsimp only; omega⟩

/-- C1 counterexample: for `width = height = 1` (a legal `width ≥ 1`,
`height ≥ 1` image) the fallback box has `x + w = 700 > 1 = imageWidth`. -/
theorem claim_C1_cex :
    (1 : Int) ≤ 1 ∧ (1 : Int) ≤ 1
    ∧ ¬ ((get_fallback_coords 1 1).x + (get_fallback_coords 1 1).w ≤ 1) := by decide

/-- C1 witness, one instance per refinement step. -/
theorem claim_C1_witness :
    ((971 : Int) ≤ 971 ∧ (1 : Int) ≤ 3000
     ∧ (0 ≤ (get_fallback_coords 971 3000).x
        ∧ 0 ≤ (get_fallback_coords 971 3000).y
        ∧ (get_fallback_coords 971 3000).x + (get_fallback_coords 971 3000).w ≤ 971
        ∧ (get_fallback_coords 971 3000).y + (get_fallback_coords 971 3000).h ≤ 3000))
    ∧ ((1 : Int) ≤ 2000
       ∧ 0 ≤ (Box.mk 100 500 900 800).x
       ∧ (Box.mk 100 500 900 800).x + (Box.mk 100 500 900 800).w ≤ 1600
       ∧ (0 ≤ (expand_vertical_range ⟨100, 500, 900, 800⟩ 2000).x
          ∧ 0 ≤ (expand_vertical_range ⟨100, 500, 900, 800⟩ 2000).y
          ∧ (expand_vertical_range ⟨100, 500, 900, 800⟩ 2000).x
              + (expand_vertical_range ⟨100, 500, 900, 800⟩ 2000).w ≤ 1600
          ∧ (expand_vertical_range ⟨100, 500, 900, 800⟩ 2000).y
              + (expand_vertical_range ⟨100, 500, 900, 800⟩ 2000).h ≤ 2000))
    ∧ ((0 : Int) ≤ 50 ∧ (1400 : Int) ≤ 1600
       ∧ (0 ≤ (split_wide_region 50 1400 1600).1
          ∧ (split_wide_region 50 1400 1600).1 + (split_wide_region 50 1400 1600).2 ≤ 1600))
    ∧ (100 + 400 + 240 ≤ maskAllInk.width
       ∧ ((expand_width_if_text_cut maskAllInk 100 400 200).1 = 100
          ∧ (expand_width_if_text_cut maskAllInk 100 400 200).1
              + (expand_width_if_text_cut maskAllInk 100 400 200).2 ≤ maskAllInk.width)) :=
  ⟨⟨by decide, by decide, claim_C1_invariants.1 971 3000 (by decide) (by decide)⟩,
   ⟨by decide, by decide, by decide,
    claim_C1_invariants.2.1 ⟨100, 500, 900, 800⟩ 2000 1600 (by decide) (by decide) (by decide)⟩,
   ⟨by decide, by decide, claim_C1_invariants.2.2.1 50 1400 1600 (by decide) (by decide)⟩,
   ⟨by decide, claim_C1_invariants.2.2.2 maskAllInk 100 400 (by decide)⟩⟩

end HebrewImages
